import Mathlib

/-!
Verification of the file-flows core (`src/file_flows/core.py`).

`FileOps` dispatches each operation on whether a path is a local filesystem
path or an `s3://` object-store location.  The object-store collaborator
(`S3Ops`, from the repository's `s3.py`, which only `core.py` references here)
is modelled from the specification's description of its capability surface.

Machine model: the local filesystem is a finite set of directories plus a
finite map from file paths to byte sizes; the object store is a finite set of
buckets plus a finite map from (bucket, key) to byte sizes.  Fallible
operations return `Except Err`.
-/

namespace FileFlows

/-- Error taxonomy of the spec (§4.2/§7) together with the Python exception
classes the local branches raise (`FileNotFoundError` ↦ `notFound`,
`IsADirectoryError` ↦ `isADirectory`, `NotADirectoryError` ↦ `notADirectory`,
`FileExistsError` ↦ `fileExists`, `shutil.SameFileError` ↦ `sameFile`). -/
inductive Err where
  | notFound
  | invalidLocation
  | isADirectory
  | notADirectory
  | fileExists
  | sameFile
  | backend
  deriving DecidableEq, Repr

/-- Opaque S3 client configuration (`S3Cfg` in the source); its contents are
outside the core's scope, so one abstract field stands for all of it. -/
structure S3Cfg where
  endpointUrl : String
  deriving DecidableEq, Repr

/-- The remote-store client collaborator (`S3Ops` in the source): a handle
holding the optional configuration it was constructed from. -/
structure S3Ops where
  cfg : Option S3Cfg
  deriving DecidableEq, Repr

/-- Local filesystem state: existing directories and a map from file path to
byte size. -/
structure LocalState where
  dirs : List String
  files : List (String × Nat)
  deriving DecidableEq, Repr

/-- Object-store state: existing buckets and a map from (bucket, key) to byte
size. -/
structure S3State where
  buckets : List String
  objects : List (String × String × Nat)
  deriving DecidableEq, Repr

/-- The whole world the operations act on. -/
structure World where
  fs : LocalState
  s3 : S3State
  deriving DecidableEq, Repr

/-! ### String helpers (structural, kernel-reducible) -/

/-- Split a character list at every occurrence of `c` (like `str.split(c)`). -/
def splitOnChar (c : Char) : List Char → List (List Char)
  | [] => [[]]
  | x :: xs =>
    match splitOnChar c xs with
    | [] => [[x]]
    | g :: gs => if x == c then [] :: g :: gs else (x :: g) :: gs

/-- Split a character list at the first occurrence of `c`: the part before it
and, when `c` occurs, the part after it. -/
def splitFirst (c : Char) : List Char → List Char × Option (List Char)
  | [] => ([], none)
  | x :: xs =>
    if x == c then ([], some xs)
    else
      let r := splitFirst c xs
      (x :: r.1, r.2)

/-- Modelled from the spec (§4.1, §6; the source method is
`S3Ops.is_s3_path` in the repository's `s3.py`, absent from `src/`): a path is
remote iff it carries the recognized `s3://` URI prefix. -/
def isS3Path (p : String) : Bool := p.toList.take 5 == "s3://".toList

/-- Modelled from the spec (§4.1 `bucket_and_key`): the remainder after the
`s3://` scheme is split into (bucket, key) at the first path separator; a
missing separator leaves the key empty. -/
def bucketAndKey (p : String) : String × String :=
  let r := splitFirst '/' (p.toList.drop 5)
  (String.mk r.1, String.mk (r.2.getD []))

/-- The nonempty `/`-separated segments of a path. -/
def pathSegs (p : String) : List String :=
  ((splitOnChar '/' p.toList).map String.mk).filter (fun s => s != "")

/-- Render a segment list back to a path string, keeping a leading `/` for
absolute paths. -/
def joinSegs (absolute : Bool) (segs : List String) : String :=
  (if absolute then "/" else "") ++ String.intercalate "/" segs

/-- The last segment of a path (`os.path.basename` for our purposes). -/
def basename (p : String) : String := (pathSegs p).getLastD ""

/-- Every prefix of the path's segments rendered back to a path, the path
itself included: the directories `mkdir(parents=True)` has to ensure. -/
def ancestorsIncl (p : String) : List String :=
  ((pathSegs p).inits.filter (fun l => l != [])).map
    (joinSegs (p.toList.take 1 == ['/']))

/-- The segments of `e` below directory `d`, when `e` lies strictly below
`d`. -/
def relSegs (d e : String) : Option (List String) :=
  let ds := pathSegs d
  let es := pathSegs e
  if ds.isPrefixOf es && decide (ds.length < es.length) then
    some (es.drop ds.length)
  else none

/-! ### Glob matching (fnmatch-style, as `pathlib.Path.glob` uses per
segment) -/

/-- Wildcard match of one pattern segment against one name: `*` matches any
run of characters, `?` any single character. -/
def wmatch : List Char → List Char → Bool
  | [], s => s.isEmpty
  | '*' :: ps, s => s.tails.any (fun t => wmatch ps t)
  | '?' :: ps, s =>
    match s with
    | [] => false
    | _ :: ss => wmatch ps ss
  | p :: ps, s =>
    match s with
    | [] => false
    | c :: ss => (p == c) && wmatch ps ss

/-- Wildcard match on strings. -/
def fnmatch (pat s : String) : Bool := wmatch pat.toList s.toList

/-- Glob match of pattern segments against relative path segments; a `**`
segment matches any number of leading segments. -/
def globSegs : List String → List String → Bool
  | [], ss => ss.isEmpty
  | p :: ps, ss =>
    if p = "**" then ss.tails.any (fun t => globSegs ps t)
    else
      match ss with
      | [] => false
      | s :: ss2 => fnmatch p s && globSegs ps ss2

/-- The `/`-separated segments of a glob pattern. -/
def patSegs (pat : String) : List String :=
  (splitOnChar '/' pat.toList).map String.mk

/-! ### Local filesystem primitives -/

/-- Size of the file stored at `p`, when present. -/
def lookupFile (files : List (String × Nat)) (p : String) : Option Nat :=
  (files.find? (fun e => e.1 == p)).map (fun e => e.2)

/-- Write (or overwrite) the file at `p`. -/
def LocalState.setFile (st : LocalState) (p : String) (n : Nat) : LocalState :=
  { st with files := (p, n) :: st.files.filter (fun e => e.1 != p) }

/-- `pathlib.Path.exists`: a file or a directory is present at `p`. -/
def LocalState.localExists (st : LocalState) (p : String) : Bool :=
  st.files.any (fun e => e.1 == p) || st.dirs.contains p

/-- `os.path.getsize`: the stored byte size for a file, a fixed inode size for
a directory, nothing when the path is absent (Python raises
`FileNotFoundError` there). -/
def LocalState.getsize (st : LocalState) (p : String) : Option Nat :=
  match lookupFile st.files p with
  | some n => some n
  | none => if p ∈ st.dirs then some 4096 else none

/-- All paths present in the local state. -/
def LocalState.entries (st : LocalState) : List String :=
  st.files.map (fun e => e.1) ++ st.dirs

/-- Insert a directory path if it is not already present. -/
def insertNew (ds : List String) (a : String) : List String :=
  if a ∈ ds then ds else ds ++ [a]

/-- Insert each of `new` in turn. -/
def insertAll (ds : List String) (new : List String) : List String :=
  new.foldl insertNew ds

/-- `Path.mkdir(exist_ok=True, parents=True)`: creates the directory and all
missing ancestors; `FileExistsError` when the path or an ancestor is an
existing non-directory file (`exist_ok` only forgives existing
directories). -/
def LocalState.mkdirParents (st : LocalState) (p : String) : Except Err LocalState :=
  if (ancestorsIncl p).any (fun a => st.files.any (fun e => e.1 == a)) then
    .error .fileExists
  else .ok { st with dirs := insertAll st.dirs (ancestorsIncl p) }

/-- `Path.unlink`: removes a file; `FileNotFoundError` when nothing is there;
`IsADirectoryError` when the path is a directory. -/
def LocalState.unlink (st : LocalState) (p : String) : Except Err LocalState :=
  if st.files.any (fun e => e.1 == p) then
    .ok { st with files := st.files.filter (fun e => e.1 != p) }
  else if p ∈ st.dirs then .error .isADirectory
  else .error .notFound

/-- `shutil.copy`: copies `src` over `dst` (into `dst` when `dst` is an
existing directory); `SameFileError` when source and destination are the same
path; `FileNotFoundError` when the source is missing. -/
def shutilCopy (src dst : String) (st : LocalState) : Except Err LocalState :=
  if src == dst then .error .sameFile
  else
    match lookupFile st.files src with
    | none => .error .notFound
    | some n =>
      let target := if dst ∈ st.dirs then dst ++ "/" ++ basename src else dst
      .ok (st.setFile target n)

/-! ### Object-store primitives -/

/-- An object is stored under (bucket `b`, key `k`). -/
def S3State.hasObject (st : S3State) (b k : String) : Bool :=
  st.objects.any (fun o => o.1 == b && o.2.1 == k)

/-- The stored size of object (`b`, `k`), when present. -/
def S3State.objectSize (st : S3State) (b k : String) : Option Nat :=
  (st.objects.find? (fun o => o.1 == b && o.2.1 == k)).map (fun o => o.2.2)

/-- Write (or overwrite) object (`b`, `k`). -/
def S3State.putObject (st : S3State) (b k : String) (n : Nat) : S3State :=
  { st with objects := (b, k, n) :: st.objects.filter (fun o => !(o.1 == b && o.2.1 == k)) }

/-- Remove object (`b`, `k`). -/
def S3State.removeObject (st : S3State) (b k : String) : S3State :=
  { st with objects := st.objects.filter (fun o => !(o.1 == b && o.2.1 == k)) }

/-- Ensure bucket `b` is present. -/
def S3State.ensureBucket (st : S3State) (b : String) : S3State :=
  if b ∈ st.buckets then st else { st with buckets := st.buckets ++ [b] }

/-! ### The S3Ops collaborator (spec-modelled: its source, `s3.py`, is not
under `src/`) -/

/-- Modelled from the spec (§4.1): remote iff the recognized URI prefix. -/
def S3Ops.is_s3_path (_s : S3Ops) (p : String) : Bool := isS3Path p

/-- Modelled from the spec (§4.1 `bucket_and_key`): split a remote path into
(bucket, key); `InvalidLocationError` on a local path. -/
def S3Ops.bucket_and_partition (s : S3Ops) (p : String) : Except Err (String × String) :=
  if s.is_s3_path p then .ok (bucketAndKey p) else .error .invalidLocation

/-- Modelled from the spec (§4.2 create, remote): ensure the named bucket
exists. -/
def S3Ops.get_bucket (_s : S3Ops) (b : String) (st : S3State) : S3State :=
  st.ensureBucket b

/-- Modelled from the spec (§4.2 exists, remote): the store existence
check. -/
def S3Ops.exists (s : S3Ops) (p : String) (st : S3State) : Except Err Bool := do
  let bk ← s.bucket_and_partition p
  .ok (st.hasObject bk.1 bk.2)

/-- Modelled from the spec (§4.2 size, remote): the byte count;
`NotFoundError` when the object is absent. -/
def S3Ops.file_size (s : S3Ops) (p : String) (st : S3State) : Except Err Nat := do
  let bk ← s.bucket_and_partition p
  match st.objectSize bk.1 bk.2 with
  | some n => .ok n
  | none => .error .notFound

/-- Modelled from the spec (§4.2 delete, remote): delegate deletion,
suppressing not-found when `if_exists` is set. -/
def S3Ops.delete_file (s : S3Ops) (p : String) (if_exists : Bool) (st : S3State) :
    Except Err S3State := do
  let bk ← s.bucket_and_partition p
  if st.hasObject bk.1 bk.2 then .ok (st.removeObject bk.1 bk.2)
  else if if_exists then .ok st
  else .error .notFound

/-- Modelled from the spec (§6 download capability): fetch the object to the
local path, overwriting; `NotFoundError` when the object is absent. -/
def S3Ops.download_file (s : S3Ops) (s3_path local_path : String) (_overwrite : Bool)
    (w : World) : Except Err World := do
  let bk ← s.bucket_and_partition s3_path
  match w.s3.objectSize bk.1 bk.2 with
  | some n => .ok { w with fs := w.fs.setFile local_path n }
  | none => .error .notFound

/-- Modelled from the spec (§2 and §6: the collaborator's server-side copy
capability; the spec's transfer contract performs any source deletion
afterwards via `delete`, so the `_delete_src` flag adds nothing here):
copy the source object to the destination location. -/
def S3Ops.transfer_s3_location (s : S3Ops) (src_path dst_path : String)
    (_delete_src : Bool) (st : S3State) : Except Err S3State := do
  let sb ← s.bucket_and_partition src_path
  let db ← s.bucket_and_partition dst_path
  match st.objectSize sb.1 sb.2 with
  | some n => .ok (st.putObject db.1 db.2 n)
  | none => .error .notFound

/-- Modelled from the spec (§6 upload capability, the boto3
`client.upload_file` call of core.py line 53): store the local file's bytes
under (bucket, key); fails when the local source or the bucket is missing. -/
def S3Ops.client_upload_file (_s : S3Ops) (src : String) (b k : String) (w : World) :
    Except Err World :=
  match lookupFile w.fs.files src with
  | none => .error .notFound
  | some n =>
    if b ∈ w.s3.buckets then .ok { w with s3 := w.s3.putObject b k n }
    else .error .notFound

/-- Modelled from the spec (§4.2 list, remote): the keys under the remote
prefix, optionally filtered by the pattern. -/
def S3Ops.list_files (s : S3Ops) (directory : String) (pattern : Option String)
    (st : S3State) : Except Err (List String) := do
  let bk ← s.bucket_and_partition directory
  let ks := (st.objects.filter
      (fun o => o.1 == bk.1 && bk.2.toList.isPrefixOf o.2.1.toList)).map
    (fun o => "s3://" ++ o.1 ++ "/" ++ o.2.1)
  match pattern with
  | none => .ok ks
  | some pat => .ok (ks.filter (fun k => fnmatch pat k))

/-! ### FileOps (core.py) -/

/-- The `FileOps` instance: the stored constructor argument and the
`cached_property` slot for the lazily built `S3Ops` handle. -/
structure FileOps where
  _s3_cfg : Option S3Cfg
  s3Cache : Option S3Ops
  deriving DecidableEq, Repr

/-- `FileOps.__init__(s3_cfg)`: stores the configuration; nothing else. -/
def FileOps.init (s3_cfg : Option S3Cfg) : FileOps :=
  { _s3_cfg := s3_cfg, s3Cache := none }

/-- The `s3` `cached_property` (core.py lines 141-143): on first access
construct `S3Ops(self._s3_cfg)` and cache it; afterwards return the cached
handle unchanged. -/
def FileOps.s3 (f : FileOps) : S3Ops × FileOps :=
  match f.s3Cache with
  | some h => (h, f)
  | none => ({ cfg := f._s3_cfg }, { f with s3Cache := some { cfg := f._s3_cfg } })

/-- `FileOps.create` (core.py lines 19-28). -/
def FileOps.create (f0 : FileOps) (location : String) (w : World) :
    Except Err (FileOps × World) :=
  let s3h := f0.s3.1
  let f := f0.s3.2
  if s3h.is_s3_path location then
    match s3h.bucket_and_partition location with
    | .error e => .error e
    | .ok bk => .ok (f, { w with s3 := s3h.get_bucket bk.1 w.s3 })
  else
    match w.fs.mkdirParents location with
    | .error e => .error e
    | .ok fs => .ok (f, { w with fs := fs })

/-- `FileOps.delete` (core.py lines 67-75): remote deletion is delegated with
the flag; locally `Path.unlink` runs under `try/except FileNotFoundError`,
re-raising unless `if_exists`. -/
def FileOps.delete (f0 : FileOps) (file : String) (if_exists : Bool) (w : World) :
    Except Err (FileOps × World) :=
  let s3h := f0.s3.1
  let f := f0.s3.2
  if s3h.is_s3_path file then
    match s3h.delete_file file if_exists w.s3 with
    | .error e => .error e
    | .ok st => .ok (f, { w with s3 := st })
  else
    match w.fs.unlink file with
    | .ok fs => .ok (f, { w with fs := fs })
    | .error .notFound => if if_exists then .ok (f, w) else .error .notFound
    | .error e => .error e

/-- `FileOps.transfer` (core.py lines 30-57): the four-way dispatch, then the
optional source deletion (which uses `delete`'s default `if_exists=False`). -/
def FileOps.transfer (f0 : FileOps) (src_path dst_path : String) (delete_src : Bool)
    (w : World) : Except Err (FileOps × World) :=
  let s3h := f0.s3.1
  let f := f0.s3.2
  let step1 : Except Err World :=
    if s3h.is_s3_path src_path then
      if s3h.is_s3_path dst_path then
        match s3h.transfer_s3_location src_path dst_path delete_src w.s3 with
        | .error e => .error e
        | .ok st => .ok { w with s3 := st }
      else s3h.download_file src_path dst_path true w
    else if s3h.is_s3_path dst_path then
      match s3h.bucket_and_partition dst_path with
      | .error e => .error e
      | .ok bk => S3Ops.client_upload_file s3h src_path bk.1 bk.2 w
    else
      match shutilCopy src_path dst_path w.fs with
      | .error e => .error e
      | .ok fs => .ok { w with fs := fs }
  match step1 with
  | .error e => .error e
  | .ok w2 => if delete_src then f.delete src_path false w2 else .ok (f, w2)

/-- `FileOps.copy` (core.py lines 59-61). -/
def FileOps.copy (f0 : FileOps) (src_path dst_path : String) (w : World) :
    Except Err (FileOps × World) :=
  f0.transfer src_path dst_path false w

/-- `FileOps.move` (core.py lines 63-65). -/
def FileOps.move (f0 : FileOps) (src_path dst_path : String) (w : World) :
    Except Err (FileOps × World) :=
  f0.transfer src_path dst_path true w

/-- `FileOps.exists` (core.py lines 77-81). -/
def FileOps.exists (f0 : FileOps) (file : String) (w : World) :
    Except Err (Bool × FileOps) :=
  let s3h := f0.s3.1
  let f := f0.s3.2
  if s3h.is_s3_path file then
    match S3Ops.exists s3h file w.s3 with
    | .error e => .error e
    | .ok b => .ok (b, f)
  else .ok (w.fs.localExists file, f)

/-- `FileOps.file_size` (core.py lines 83-87). -/
def FileOps.file_size (f0 : FileOps) (file : String) (w : World) :
    Except Err (Nat × FileOps) :=
  let s3h := f0.s3.1
  let f := f0.s3.2
  if s3h.is_s3_path file then
    match S3Ops.file_size s3h file w.s3 with
    | .error e => .error e
    | .ok n => .ok (n, f)
  else
    match w.fs.getsize file with
    | some n => .ok (n, f)
    | none => .error .notFound

/-- Local `Path(directory).glob(pattern)`: the entries lying below `directory`
whose relative segments glob-match the pattern's segments. -/
def globList (st : LocalState) (d pat : String) : List String :=
  st.entries.filter (fun e =>
    match relSegs d e with
    | some rs => globSegs (patSegs pat) rs
    | none => false)

/-- Local `Path(directory).iterdir()`: the direct children;
`FileNotFoundError` when the directory is absent, `NotADirectoryError` when a
file sits there. -/
def iterdirList (st : LocalState) (d : String) : Except Err (List String) :=
  if d ∈ st.dirs then
    .ok (st.entries.filter (fun e =>
      match relSegs d e with
      | some rs => rs.length == 1
      | none => false))
  else if st.files.any (fun e => e.1 == d) then .error .notADirectory
  else .error .notFound

/-- `FileOps.list_files` (core.py lines 89-97); Python's `if pattern:` is a
truthiness test, so an empty pattern string falls through to `iterdir`. -/
def FileOps.list_files (f0 : FileOps) (directory : String) (pattern : Option String)
    (w : World) : Except Err (List String × FileOps) :=
  let s3h := f0.s3.1
  let f := f0.s3.2
  if s3h.is_s3_path directory then
    match S3Ops.list_files s3h directory pattern w.s3 with
    | .error e => .error e
    | .ok l => .ok (l, f)
  else if pattern.getD "" != "" then
    .ok (globList w.fs directory (pattern.getD ""), f)
  else
    match iterdirList w.fs directory with
    | .error e => .error e
    | .ok l => .ok (l, f)

/-! ### CSV reading (core.py lines 108-126, local branch) -/

/-- The Python value passed as `header`: the booleans, a list/tuple of column
names, or some other value such as the integer 1. -/
inductive HeaderArg where
  | boolArg (b : Bool)
  | colsArg (cs : List String)
  | natArg (n : Nat)
  deriving DecidableEq, Repr

/-- The Python identity test `header is True` of core.py line 121: only the
boolean `True` itself passes. -/
def headerIsTrue : HeaderArg → Bool
  | .boolArg true => true
  | _ => false

/-- The `isinstance(header, (list, tuple))` selection of core.py line 122. -/
def headerColumns : HeaderArg → Option (List String)
  | .colsArg cs => some cs
  | _ => none

/-- An in-memory table: column names and row data. -/
structure Table where
  header : List String
  rows : List (List String)
  deriving DecidableEq, Repr

/-- Default column name polars gives column `i` of a headerless file. -/
def defaultColName (i : Nat) : String := "column_" ++ toString (i + 1)

/-- Keep only the columns whose name occurs in `cs`. -/
def selectCols (t : Table) (cs : List String) : Table :=
  let idxs := (List.range t.header.length).filter
    (fun i => (t.header.get? i).any (fun n => cs.contains n))
  { header := idxs.filterMap (fun i => t.header.get? i),
    rows := t.rows.map (fun r => idxs.filterMap (fun i => r.get? i)) }

/-- Modelled from the polars collaborator's `read_csv`: with `has_header` the
first row becomes the column names, otherwise synthetic names are used and
every row is data; `columns` then selects columns. -/
def pl_read_csv (rows : List (List String)) (has_header : Bool)
    (columns : Option (List String)) : Table :=
  let base : Table :=
    if has_header then { header := rows.headD [], rows := rows.tail }
    else { header := (List.range (rows.headD []).length).map defaultColName, rows := rows }
  match columns with
  | none => base
  | some cs => selectCols base cs

/-- The local branch of `FileOps.df_from_csv` (core.py lines 118-123): the
`pl.read_csv` call with `has_header := header is True` and
`columns := header if isinstance(header, (list, tuple)) else None`.  `rows`
stands for the parsed content of the local CSV file; the `dtypes` and
`return_as` arguments do not touch header handling and are omitted. -/
def df_from_csv_local (rows : List (List String)) (header : HeaderArg) : Table :=
  pl_read_csv rows (headerIsTrue header) (headerColumns header)

/-! ### Classification and routing (spec §4.1, core.py lines 30-55) -/

/-- A classified location (spec §3/§4.1). -/
inductive Location where
  | localPath (p : String)
  | remoteLoc (bucket key : String)
  deriving DecidableEq, Repr

/-- PathClassifier (spec §4.1): remote iff the `s3://` prefix, with bucket and
key split out; local otherwise. -/
def classify (p : String) : Location :=
  if isS3Path p then
    let bk := bucketAndKey p
    .remoteLoc bk.1 bk.2
  else .localPath p

/-- The four transfer actions. -/
inductive Route where
  | remoteTransfer
  | download
  | upload
  | localCopy
  deriving DecidableEq, Repr

/-- The branch `FileOps.transfer` takes, read off the source's nested
`is_s3_path` tests (core.py lines 38-55). -/
def transferRoute (src dst : String) : Route :=
  if isS3Path src then
    if isS3Path dst then .remoteTransfer else .download
  else if isS3Path dst then .upload
  else .localCopy

/-- The route the spec prescribes for a pair of classified locations. -/
def routeOfClassified : Location → Location → Route
  | .remoteLoc _ _, .remoteLoc _ _ => .remoteTransfer
  | .remoteLoc _ _, .localPath _ => .download
  | .localPath _, .remoteLoc _ _ => .upload
  | .localPath _, .localPath _ => .localCopy

/-- The transfer body routed through an explicit `Route` value: the selected
action, then the optional source deletion. -/
def transferStep (r : Route) (f0 : FileOps) (src_path dst_path : String)
    (delete_src : Bool) (w : World) : Except Err (FileOps × World) :=
  let s3h := f0.s3.1
  let f := f0.s3.2
  let step1 : Except Err World :=
    match r with
    | .remoteTransfer =>
      match s3h.transfer_s3_location src_path dst_path delete_src w.s3 with
      | .error e => .error e
      | .ok st => .ok { w with s3 := st }
    | .download => s3h.download_file src_path dst_path true w
    | .upload =>
      match s3h.bucket_and_partition dst_path with
      | .error e => .error e
      | .ok bk => S3Ops.client_upload_file s3h src_path bk.1 bk.2 w
    | .localCopy =>
      match shutilCopy src_path dst_path w.fs with
      | .error e => .error e
      | .ok fs => .ok { w with fs := fs }
  match step1 with
  | .error e => .error e
  | .ok w2 => if delete_src then f.delete src_path false w2 else .ok (f, w2)

/-- Files and directories never share a path (the operating system
guarantees this; states reachable from real filesystems satisfy it). -/
def LocalState.wfb (st : LocalState) : Bool :=
  st.files.all (fun e => !(st.dirs.contains e.1))

/-! ### Sample states used by the witnesses -/

/-- A sample local state: two parquet files at different depths and a csv. -/
def sampleListState : LocalState :=
  { dirs := ["/t", "/t/sub"],
    files := [("/t/a.parquet", 1), ("/t/b.csv", 2), ("/t/sub/c.parquet", 3)] }

/-- The empty object store. -/
def emptyS3 : S3State := { buckets := [], objects := [] }

/-- A sample world: the directory `/a` holding one 7-byte file. -/
def sampleMoveSrcWorld : World :=
  { fs := { dirs := ["/a"], files := [("/a/x", 7)] }, s3 := emptyS3 }

/-- The same world after `/a/x` has been moved to `/a/y`. -/
def sampleMoveDstWorld : World :=
  { fs := { dirs := ["/a"], files := [("/a/y", 7)] }, s3 := emptyS3 }

/-- A `FileOps` instance whose s3 handle cache is already filled. -/
def cachedNoneFileOps : FileOps :=
  { _s3_cfg := none, s3Cache := some { cfg := none } }

/-! ### Theorems -/

lemma s3_snd_s3 (f : FileOps) : (f.s3.2).s3 = (f.s3.1, f.s3.2) := by
  cases hc : f.s3Cache <;> simp [FileOps.s3, hc]

lemma create_ok_inst (f : FileOps) (loc : String) (w : World) (r : FileOps × World)
    (hr : f.create loc w = .ok r) : r.1 = f.s3.2 := by
  simp only [FileOps.create, S3Ops.is_s3_path] at hr
  cases his : isS3Path loc <;>
    simp [his, S3Ops.bucket_and_partition, S3Ops.is_s3_path] at hr
  · cases hm : w.fs.mkdirParents loc <;> simp [hm] at hr
    rw [← hr]
  · rw [← hr]

lemma delete_ok_inst (f : FileOps) (x : String) (b : Bool) (w : World) (r : FileOps × World)
    (hr : f.delete x b w = .ok r) : r.1 = f.s3.2 := by
  simp only [FileOps.delete, S3Ops.is_s3_path] at hr
  cases his : isS3Path x <;> simp [his] at hr
  · cases hu : w.fs.unlink x with
    | ok fs => simp [hu] at hr; rw [← hr]
    | error e =>
      cases e <;> simp [hu] at hr
      cases b <;> simp at hr
      rw [← hr]
  · cases hd : S3Ops.delete_file f.s3.1 x b w.s3 <;> simp [hd] at hr
    rw [← hr]

lemma exists_ok_inst (f : FileOps) (x : String) (w : World) (r : Bool × FileOps)
    (hr : FileOps.exists f x w = .ok r) : r.2 = f.s3.2 := by
  simp only [FileOps.exists, S3Ops.is_s3_path] at hr
  cases his : isS3Path x <;> simp [his] at hr
  · rw [← hr]
  · cases he : S3Ops.exists f.s3.1 x w.s3 <;> simp [he] at hr
    rw [← hr]

lemma transfer_ok_inst (f : FileOps) (s d : String) (b : Bool) (w : World)
    (r : FileOps × World) (hr : f.transfer s d b w = .ok r) : r.1 = f.s3.2 := by
  simp only [FileOps.transfer] at hr
  cases hs : (if S3Ops.is_s3_path f.s3.1 s = true then
      if S3Ops.is_s3_path f.s3.1 d = true then
        match S3Ops.transfer_s3_location f.s3.1 s d b w.s3 with
        | .error e => .error e
        | .ok st => .ok { w with s3 := st }
      else S3Ops.download_file f.s3.1 s d true w
    else if S3Ops.is_s3_path f.s3.1 d = true then
      match S3Ops.bucket_and_partition f.s3.1 d with
      | .error e => .error e
      | .ok bk => S3Ops.client_upload_file f.s3.1 s bk.1 bk.2 w
    else
      match shutilCopy s d w.fs with
      | .error e => .error e
      | .ok fs => .ok { w with fs := fs } : Except Err World) with
  | error e => simp [hs] at hr
  | ok w2 =>
    simp [hs] at hr
    cases b with
    | false => simp at hr; rw [← hr]
    | true =>
      simp at hr
      have := delete_ok_inst (f.s3.2) s false w2 r hr
      rw [this, s3_snd_s3]

/-- Claim C4: `copy` is exactly `transfer` with `delete_src := false` and `move` is
exactly `transfer` with `delete_src := true`, for every pair of paths, instance
and world: the pairs of functions agree in result and effects. -/
theorem copy_move_are_transfer :
    ∀ (f0 : FileOps) (src dst : String) (w : World),
      FileOps.copy f0 src dst w = FileOps.transfer f0 src dst false w
      ∧ FileOps.move f0 src dst w = FileOps.transfer f0 src dst true w :=
  fun _ _ _ _ => ⟨rfl, rfl⟩

/-- Claim C1: `transfer` dispatches on the classification of `src` and `dst`
independently and routes to exactly one of four actions: both remote goes to
the server-side remote transfer, remote source with local destination to
download, local source with remote destination to upload, and both local to
the local byte copy.  The route equals the spec's table over the classified
pair, and the whole `transfer` body equals the routed body. -/
theorem transfer_dispatch (src dst : String) :
    transferRoute src dst = routeOfClassified (classify src) (classify dst)
    ∧ ∀ (f0 : FileOps) (delete_src : Bool) (w : World),
      FileOps.transfer f0 src dst delete_src w
        = transferStep (transferRoute src dst) f0 src dst delete_src w := by
  constructor
  · cases h1 : isS3Path src <;> cases h2 : isS3Path dst <;>
      simp [transferRoute, routeOfClassified, classify, h1, h2]
  · intro f0 ds w
    cases h1 : isS3Path src <;> cases h2 : isS3Path dst <;>
      simp [FileOps.transfer, transferStep, transferRoute, S3Ops.is_s3_path, h1, h2]

/-- Claim C8: the remote-store client handle is constructed at most once per
instance, on first access, and every later access and operation on the
resulting instance reuses the same handle value; the instance state carries
nothing beyond the stored configuration and that one cached handle, and each
operation returns the instance unchanged apart from the cache fill. -/
theorem s3_handle_cached_once (f : FileOps) :
    (f.s3.2).s3 = (f.s3.1, f.s3.2)
    ∧ (f.s3.2)._s3_cfg = f._s3_cfg
    ∧ (f.s3Cache = none →
        f.s3 = ({ cfg := f._s3_cfg }, { f with s3Cache := some { cfg := f._s3_cfg } }))
    ∧ (∀ h, f.s3Cache = some h → f.s3 = (h, f))
    ∧ (∀ loc w r, f.create loc w = .ok r → r.1 = f.s3.2)
    ∧ (∀ x b w r, f.delete x b w = .ok r → r.1 = f.s3.2)
    ∧ (∀ x w r, FileOps.exists f x w = .ok r → r.2 = f.s3.2)
    ∧ (∀ s d b w r, f.transfer s d b w = .ok r → r.1 = f.s3.2) := by
  refine ⟨s3_snd_s3 f, ?_, ?_, ?_,
    fun loc w r hr => create_ok_inst f loc w r hr,
    fun x b w r hr => delete_ok_inst f x b w r hr,
    fun x w r hr => exists_ok_inst f x w r hr,
    fun s d b w r hr => transfer_ok_inst f s d b w r hr⟩
  · cases hc : f.s3Cache <;> simp [FileOps.s3, hc]
  · intro hc; simp [FileOps.s3, hc]
  · intro h hc; simp [FileOps.s3, hc]

/-- Claim C9: every public operation constructs the remote-store client on the
instance's first call even when every path argument is local and no s3
configuration was given, because path classification itself is a method of the
lazily built `s3` handle: after any `create` or `exists` call on a fresh
instance the `S3Ops` handle has been instantiated. -/
theorem local_ops_construct_s3_handle :
    ∀ (cfg : Option S3Cfg) (p : String) (w : World),
      isS3Path p = false →
      (∀ f1 w1, (FileOps.init cfg).create p w = .ok (f1, w1) →
        f1.s3Cache = some { cfg := cfg })
      ∧ (∀ b f1, FileOps.exists (FileOps.init cfg) p w = .ok (b, f1) →
        f1.s3Cache = some { cfg := cfg }) := by
  intro cfg p w hp
  constructor
  · intro f1 w1 hr
    have h1 := create_ok_inst (FileOps.init cfg) p w (f1, w1) hr
    simp at h1
    rw [h1]; rfl
  · intro b f1 hr
    have h1 := exists_ok_inst (FileOps.init cfg) p w (b, f1) hr
    simp at h1
    rw [h1]; rfl

theorem local_ops_construct_s3_handle_witness :
    (FileOps.init none).create "p"
        { fs := { dirs := [], files := [] }, s3 := { buckets := [], objects := [] } }
      = .ok ({ _s3_cfg := none, s3Cache := some { cfg := none } },
        { fs := { dirs := ["p"], files := [] }, s3 := { buckets := [], objects := [] } })
    ∧ ({ _s3_cfg := none, s3Cache := some { cfg := none } } : FileOps).s3Cache
      = some { cfg := none } :=
  ⟨rfl,
    (local_ops_construct_s3_handle none "p"
      { fs := { dirs := [], files := [] }, s3 := { buckets := [], objects := [] } }
      (by decide)).1
    { _s3_cfg := none, s3Cache := some { cfg := none } }
    { fs := { dirs := ["p"], files := [] }, s3 := { buckets := [], objects := [] } } rfl⟩

/-- Claim C10: the local branch of `df_from_csv` treats the file as having a
header row iff the `header` argument is the boolean `True` itself (the Python
`is` identity test): a list/tuple of names or any other value such as the
integer 1 makes the parse headerless, and only a list/tuple is additionally
passed on to select columns. -/
theorem df_from_csv_header_semantics :
    ∀ (rows : List (List String)) (h : HeaderArg),
      (headerIsTrue h = true ↔ h = HeaderArg.boolArg true)
      ∧ (∀ cs, headerColumns h = some cs ↔ h = HeaderArg.colsArg cs)
      ∧ df_from_csv_local rows h
          = pl_read_csv rows (headerIsTrue h) (headerColumns h)
      ∧ (h ≠ HeaderArg.boolArg true →
          (pl_read_csv rows (headerIsTrue h) none).rows = rows)
      ∧ (h = HeaderArg.boolArg true →
          (df_from_csv_local rows h).header = rows.headD []
          ∧ (df_from_csv_local rows h).rows = rows.tail) := by
  intro rows h
  refine ⟨?_, ?_, rfl, ?_, ?_⟩
  · cases h with
    | boolArg b => cases b <;> simp [headerIsTrue]
    | colsArg cs => simp [headerIsTrue]
    | natArg n => simp [headerIsTrue]
  · intro cs
    cases h <;> simp [headerColumns]
  · intro hne
    have hf : headerIsTrue h = false := by
      cases h with
      | boolArg b => cases b with
        | true => exact absurd rfl hne
        | false => rfl
      | colsArg cs => rfl
      | natArg n => rfl
    simp [hf, pl_read_csv]
  · intro he
    subst he
    simp [df_from_csv_local, pl_read_csv, headerIsTrue, headerColumns]

lemma mem_insertNew (ds : List String) (a b : String) (h : a ∈ ds) : a ∈ insertNew ds b := by
  unfold insertNew; split
  · exact h
  · exact List.mem_append_left _ h

lemma self_mem_insertNew (ds : List String) (b : String) : b ∈ insertNew ds b := by
  unfold insertNew; split
  · assumption
  · simp

lemma mem_insertAll_left (ds l : List String) (a : String) (h : a ∈ ds) :
    a ∈ insertAll ds l := by
  induction l generalizing ds with
  | nil => exact h
  | cons x xs ih => exact ih _ (mem_insertNew _ _ _ h)

lemma mem_insertAll_of_mem (ds l : List String) (a : String) (h : a ∈ l) :
    a ∈ insertAll ds l := by
  induction l generalizing ds with
  | nil => cases h
  | cons x xs ih =>
    rcases List.mem_cons.mp h with h1 | h2
    · subst h1
      exact mem_insertAll_left (insertNew ds a) xs a (self_mem_insertNew ds a)
    · exact ih _ h2

lemma insertNew_of_mem (ds : List String) (a : String) (h : a ∈ ds) :
    insertNew ds a = ds := if_pos h

lemma insertAll_of_forall_mem (ds l : List String) (h : ∀ a ∈ l, a ∈ ds) :
    insertAll ds l = ds := by
  induction l with
  | nil => rfl
  | cons x xs ih =>
    show insertAll (insertNew ds x) xs = ds
    rw [insertNew_of_mem ds x (h x (List.mem_cons_self x xs))]
    exact ih (fun a ha => h a (List.mem_cons_of_mem _ ha))

lemma insertAll_idem (ds l : List String) :
    insertAll (insertAll ds l) l = insertAll ds l :=
  insertAll_of_forall_mem _ _ (fun _ ha => mem_insertAll_of_mem _ _ _ ha)

lemma mem_ensureBucket_self (st : S3State) (b : String) :
    b ∈ (st.ensureBucket b).buckets := by
  unfold S3State.ensureBucket; split
  · assumption
  · simp

lemma ensureBucket_of_mem (st : S3State) (b : String) (h : b ∈ st.buckets) :
    st.ensureBucket b = st := by
  unfold S3State.ensureBucket; exact if_pos h

lemma ensureBucket_idem (st : S3State) (b : String) :
    (st.ensureBucket b).ensureBucket b = st.ensureBucket b :=
  ensureBucket_of_mem _ _ (mem_ensureBucket_self st b)

/-- Claim C3, counterexample: deleting an existing local directory raises
`IsADirectoryError` even with `if_exists` set, so `delete(x, if_missing_ok=true)`
is not exception-free for every kind of entry. -/
theorem delete_dir_with_missing_ok_cex :
    FileOps.delete (FileOps.init none) "d" true
      { fs := { dirs := ["d"], files := [] }, s3 := { buckets := [], objects := [] } }
      = .error .isADirectory := rfl

/-- Claim C3 as amended: `delete(x, if_missing_ok := true)` never raises for any
remote location and for any local location that is not an existing directory
(the flag silences only the file-not-found case); and for a missing local
file, `delete` without the flag propagates `NotFoundError`. -/
theorem delete_if_missing_ok_spec :
    ∀ (f0 : FileOps) (x : String) (w : World),
      (isS3Path x = false → x ∉ w.fs.dirs) →
      (∃ r, FileOps.delete f0 x true w = .ok r)
      ∧ (isS3Path x = false → w.fs.localExists x = false →
          FileOps.delete f0 x false w = .error .notFound) := by
  intro f0 x w hdir
  cases his : isS3Path x
  · have hd := hdir his
    constructor
    · simp only [FileOps.delete, S3Ops.is_s3_path, his]
      simp only [LocalState.unlink]
      cases haf : w.fs.files.any (fun e => e.1 == x)
      · exact ⟨(f0.s3.2, w), by simp [haf, hd]⟩
      · exact ⟨(f0.s3.2, { w with fs := { w.fs with
          files := w.fs.files.filter (fun e => e.1 != x) } }), by simp [haf]⟩
    · intro _ hex
      simp only [LocalState.localExists, Bool.or_eq_false_iff] at hex
      have hnd : x ∉ w.fs.dirs := by simpa using hex.2
      simp only [FileOps.delete, S3Ops.is_s3_path, his]
      simp [LocalState.unlink, hex.1, hnd]
  · constructor
    · simp only [FileOps.delete, S3Ops.is_s3_path, his]
      simp only [S3Ops.delete_file, S3Ops.bucket_and_partition, S3Ops.is_s3_path, his]
      cases hob : w.s3.hasObject (bucketAndKey x).1 (bucketAndKey x).2
      · exact ⟨(f0.s3.2, w), by simp [hob, Bind.bind, Except.bind]⟩
      · exact ⟨(f0.s3.2, { w with
          s3 := w.s3.removeObject (bucketAndKey x).1 (bucketAndKey x).2 }),
          by simp [hob, Bind.bind, Except.bind]⟩
    · intro hfalse
      exact absurd hfalse (by simp)

theorem delete_if_missing_ok_witness :
    (∃ r, FileOps.delete (FileOps.init none) "x" true
        { fs := { dirs := [], files := [] }, s3 := { buckets := [], objects := [] } }
      = .ok r)
    ∧ (isS3Path "x" = false →
        LocalState.localExists { dirs := [], files := [] } "x" = false →
        FileOps.delete (FileOps.init none) "x" false
          { fs := { dirs := [], files := [] }, s3 := { buckets := [], objects := [] } }
          = .error .notFound) :=
  delete_if_missing_ok_spec (FileOps.init none) "x"
    { fs := { dirs := [], files := [] }, s3 := { buckets := [], objects := [] } }
    (by decide)

/-- Claim C5, counterexample: `create` on a location occupied by an existing
local file raises `FileExistsError` (`mkdir(exist_ok=True)` forgives only an
existing directory), so `create` is not error-free for every location. -/
theorem create_on_existing_file_cex :
    FileOps.create (FileOps.init none) "p"
      { fs := { dirs := [], files := [("p", 3)] }, s3 := { buckets := [], objects := [] } }
      = .error .fileExists := rfl

/-- Claim C5 as amended: `create` is idempotent on every remote location and on
every local location none of whose ancestors (itself included) is occupied by
a file: both calls succeed, the second returns exactly the first call's
post-state, and the first local call creates all missing parent
directories. -/
theorem create_idempotent_spec :
    ∀ (f0 : FileOps) (loc : String) (w : World),
      (isS3Path loc = false →
        (ancestorsIncl loc).any (fun a => w.fs.files.any (fun e => e.1 == a)) = false) →
      ∃ f1 w1,
        FileOps.create f0 loc w = .ok (f1, w1)
        ∧ FileOps.create f1 loc w1 = .ok (f1, w1)
        ∧ (isS3Path loc = false → ∀ a ∈ ancestorsIncl loc, a ∈ w1.fs.dirs) := by
  intro f0 loc w hg
  cases his : isS3Path loc
  · have hg2 := hg his
    refine ⟨f0.s3.2,
      { w with fs := { w.fs with dirs := insertAll w.fs.dirs (ancestorsIncl loc) } },
      ?_, ?_, ?_⟩
    · simp [FileOps.create, S3Ops.is_s3_path, his, LocalState.mkdirParents, hg2]
    · simp only [FileOps.create, s3_snd_s3, S3Ops.is_s3_path, his]
      simp [LocalState.mkdirParents, hg2, insertAll_idem]
    · intro _ a ha
      exact mem_insertAll_of_mem _ _ _ ha
  · refine ⟨f0.s3.2,
      { w with s3 := w.s3.ensureBucket (bucketAndKey loc).1 }, ?_, ?_, ?_⟩
    · simp [FileOps.create, S3Ops.is_s3_path, his, S3Ops.bucket_and_partition,
        S3Ops.get_bucket]
    · simp only [FileOps.create, s3_snd_s3, S3Ops.is_s3_path, his]
      simp [S3Ops.bucket_and_partition, S3Ops.is_s3_path, his, S3Ops.get_bucket,
        ensureBucket_idem]
    · intro hfalse
      exact absurd hfalse (by simp)

theorem create_idempotent_witness :
    ∃ f1 w1,
      FileOps.create (FileOps.init none) "/tmp/out"
          { fs := { dirs := [], files := [] }, s3 := { buckets := [], objects := [] } }
        = .ok (f1, w1)
      ∧ FileOps.create f1 "/tmp/out" w1 = .ok (f1, w1)
      ∧ (isS3Path "/tmp/out" = false →
          ∀ a ∈ ancestorsIncl "/tmp/out", a ∈ w1.fs.dirs) :=
  create_idempotent_spec (FileOps.init none) "/tmp/out"
    { fs := { dirs := [], files := [] }, s3 := { buckets := [], objects := [] } }
    (by decide)

lemma hasObject_eq_isSome (st : S3State) (b k : String) :
    st.hasObject b k = (st.objectSize b k).isSome := by
  unfold S3State.hasObject S3State.objectSize
  cases hf : st.objects.find? (fun o => o.1 == b && o.2.1 == k) with
  | none =>
    simp only [hf, Option.map_none', Option.isSome_none]
    rw [List.any_eq_false]
    intro o ho
    exact List.find?_eq_none.mp hf o ho
  | some o =>
    simp only [hf, Option.map_some', Option.isSome_some]
    have hm : o ∈ st.objects := List.mem_of_find?_eq_some hf
    have hp := List.find?_some hf
    exact List.any_eq_true.mpr ⟨o, hm, hp⟩

lemma localExists_eq_isSome (st : LocalState) (p : String) :
    st.localExists p = (st.getsize p).isSome := by
  unfold LocalState.localExists LocalState.getsize lookupFile
  cases hf : st.files.find? (fun e => e.1 == p) with
  | none =>
    simp only [hf, Option.map_none']
    have hany : st.files.any (fun e => e.1 == p) = false := by
      rw [List.any_eq_false]
      intro e he
      exact List.find?_eq_none.mp hf e he
    rw [hany]
    by_cases hd : p ∈ st.dirs <;> simp [hd]
  | some o =>
    simp only [hf, Option.map_some', Option.isSome_some]
    have hm : o ∈ st.files := List.mem_of_find?_eq_some hf
    have hp := List.find?_some hf
    have hany : st.files.any (fun e => e.1 == p) = true :=
      List.any_eq_true.mpr ⟨o, hm, hp⟩
    simp [hany]

/-- Claim C7: whenever `exists` answers false, `file_size` fails with
`NotFoundError` (a distinguished error constructor), and whenever `exists`
answers true, `file_size` returns a byte count, on both backends. -/
theorem file_size_matches_exists :
    ∀ (f0 : FileOps) (x : String) (w : World) (b : Bool) (f1 : FileOps),
      FileOps.exists f0 x w = .ok (b, f1) →
      (b = true → ∃ n, FileOps.file_size f0 x w = .ok (n, f1))
      ∧ (b = false → FileOps.file_size f0 x w = .error .notFound) := by
  intro f0 x w b f1 hex
  cases his : isS3Path x
  · simp only [FileOps.exists, S3Ops.is_s3_path, his, Except.ok.injEq,
      Prod.mk.injEq] at hex
    obtain ⟨rfl, rfl⟩ := hex
    constructor
    · intro hbt
      have hiso : (w.fs.getsize x).isSome = true := by
        rw [← localExists_eq_isSome]; exact hbt
      obtain ⟨n, hn⟩ := Option.isSome_iff_exists.mp hiso
      exact ⟨n, by simp [FileOps.file_size, S3Ops.is_s3_path, his, hn]⟩
    · intro hbf
      have hiso : (w.fs.getsize x).isSome = false := by
        rw [← localExists_eq_isSome]; exact hbf
      have hn : w.fs.getsize x = none := by
        cases hg : w.fs.getsize x
        · rfl
        · rw [hg] at hiso; cases hiso
      simp [FileOps.file_size, S3Ops.is_s3_path, his, hn]
  · simp only [FileOps.exists, S3Ops.exists, S3Ops.bucket_and_partition,
      S3Ops.is_s3_path, his, if_true, Bind.bind, Except.bind, Except.ok.injEq,
      Prod.mk.injEq] at hex
    obtain ⟨rfl, rfl⟩ := hex
    constructor
    · intro hbt
      have hiso : (w.s3.objectSize (bucketAndKey x).1 (bucketAndKey x).2).isSome = true := by
        rw [← hasObject_eq_isSome]; exact hbt
      obtain ⟨n, hn⟩ := Option.isSome_iff_exists.mp hiso
      exact ⟨n, by simp [FileOps.file_size, S3Ops.file_size, S3Ops.bucket_and_partition,
        S3Ops.is_s3_path, his, Bind.bind, Except.bind, hn]⟩
    · intro hbf
      have hiso : (w.s3.objectSize (bucketAndKey x).1 (bucketAndKey x).2).isSome = false := by
        rw [← hasObject_eq_isSome]; exact hbf
      have hn : w.s3.objectSize (bucketAndKey x).1 (bucketAndKey x).2 = none := by
        cases hg : w.s3.objectSize (bucketAndKey x).1 (bucketAndKey x).2
        · rfl
        · rw [hg] at hiso; cases hiso
      simp [FileOps.file_size, S3Ops.file_size, S3Ops.bucket_and_partition,
        S3Ops.is_s3_path, his, Bind.bind, Except.bind, hn]

theorem file_size_matches_exists_witness :
    (true = true → ∃ n, FileOps.file_size (FileOps.init none) "a"
        { fs := { dirs := [], files := [("a", 5)] }, s3 := { buckets := [], objects := [] } }
      = .ok (n, { _s3_cfg := none, s3Cache := some { cfg := none } }))
    ∧ (true = false → FileOps.file_size (FileOps.init none) "a"
        { fs := { dirs := [], files := [("a", 5)] }, s3 := { buckets := [], objects := [] } }
      = .error .notFound) :=
  file_size_matches_exists (FileOps.init none) "a"
    { fs := { dirs := [], files := [("a", 5)] }, s3 := { buckets := [], objects := [] } }
    true { _s3_cfg := none, s3Cache := some { cfg := none } } rfl

lemma globSegs_single (pat : String) (hne : pat ≠ "**") (rs : List String) :
    globSegs [pat] rs = true ↔ ∃ name, rs = [name] ∧ fnmatch pat name = true := by
  cases rs with
  | nil => simp [globSegs, hne]
  | cons s ss =>
    cases ss with
    | nil => simp [globSegs, hne]
    | cons s2 ss2 => simp [globSegs, hne]

/-- Claim C6: for a local directory, `list_files` with a single-segment
non-recursive pattern returns exactly the entries directly inside the
directory whose name wildcard-matches the pattern, and without a pattern it
returns exactly the direct children; in both cases every returned entry is a
direct child, so listing never descends into subdirectories. -/
theorem list_files_local_spec :
    ∀ (f0 : FileOps) (st : LocalState) (s3st : S3State) (d pat e : String),
      isS3Path d = false →
      patSegs pat = [pat] → pat ≠ "**" → pat ≠ "" →
      (∀ l f1,
        FileOps.list_files f0 d (some pat) { fs := st, s3 := s3st } = .ok (l, f1) →
        (e ∈ l ↔ e ∈ st.entries
          ∧ ∃ name, relSegs d e = some [name] ∧ fnmatch pat name = true))
      ∧ (d ∈ st.dirs →
        ∀ l f1,
          FileOps.list_files f0 d none { fs := st, s3 := s3st } = .ok (l, f1) →
          (e ∈ l ↔ e ∈ st.entries ∧ ∃ name, relSegs d e = some [name])) := by
  intro f0 st s3st d pat e hs3 hpat hne hne2
  constructor
  · intro l f1 hl
    have hbp : (pat != "") = true := by simpa using hne2
    simp only [FileOps.list_files, S3Ops.is_s3_path, hs3, Bool.false_eq_true,
      if_false, Option.getD_some, hbp, if_true, Except.ok.injEq, Prod.mk.injEq] at hl
    obtain ⟨rfl, rfl⟩ := hl
    unfold globList
    rw [List.mem_filter]
    cases hrel : relSegs d e
    · simp [hrel]
    · simp [hrel, hpat, globSegs_single pat hne]
  · intro hd l f1 hl
    simp only [FileOps.list_files, S3Ops.is_s3_path, hs3, Bool.false_eq_true,
      if_false, Option.getD_none, bne_self_eq_false, iterdirList, hd, if_true,
      Except.ok.injEq, Prod.mk.injEq] at hl
    obtain ⟨rfl, rfl⟩ := hl
    rw [List.mem_filter]
    cases hrel : relSegs d e
    · simp [hrel]
    · simp [hrel, List.length_eq_one]

theorem list_files_local_witness :
    (∀ l f1,
      FileOps.list_files (FileOps.init none) "/t" (some "*.parquet")
          { fs := sampleListState, s3 := emptyS3 } = .ok (l, f1) →
      ("/t/a.parquet" ∈ l ↔
        "/t/a.parquet" ∈ sampleListState.entries
        ∧ ∃ name, relSegs "/t" "/t/a.parquet" = some [name]
            ∧ fnmatch "*.parquet" name = true))
    ∧ ("/t" ∈ sampleListState.dirs →
      ∀ l f1,
        FileOps.list_files (FileOps.init none) "/t" none
            { fs := sampleListState, s3 := emptyS3 } = .ok (l, f1) →
        ("/t/a.parquet" ∈ l ↔
          "/t/a.parquet" ∈ sampleListState.entries
          ∧ ∃ name, relSegs "/t" "/t/a.parquet" = some [name])) :=
  list_files_local_spec (FileOps.init none) sampleListState emptyS3
    "/t" "*.parquet" "/t/a.parquet"
    (by decide) (by decide) (by decide) (by decide)

lemma any_key_filter_ne (l : List (String × Nat)) (p : String) :
    (l.filter (fun e => e.1 != p)).any (fun e => e.1 == p) = false := by
  rw [List.any_eq_false]
  intro e he
  have h2 := (List.mem_filter.mp he).2
  simpa using h2

lemma any_key_filter_keep (l : List (String × Nat)) (p q : String) (hne : q ≠ p)
    (h : l.any (fun e => e.1 == q) = true) :
    (l.filter (fun e => e.1 != p)).any (fun e => e.1 == q) = true := by
  obtain ⟨e, he, hp⟩ := List.any_eq_true.mp h
  have heq : e.1 = q := by simpa using hp
  refine List.any_eq_true.mpr ⟨e, List.mem_filter.mpr ⟨he, ?_⟩, hp⟩
  simp [heq, hne]

lemma lookup_some_any (l : List (String × Nat)) (p : String) (n : Nat)
    (h : lookupFile l p = some n) : l.any (fun e => e.1 == p) = true := by
  unfold lookupFile at h
  cases hf : l.find? (fun e => e.1 == p) with
  | none => rw [hf] at h; cases h
  | some e =>
    have hm : e ∈ l := List.mem_of_find?_eq_some hf
    have hp := List.find?_some hf
    exact List.any_eq_true.mpr ⟨e, hm, hp⟩

lemma wfb_any_not_dir (st : LocalState) (p : String) (hw : st.wfb = true)
    (h : st.files.any (fun e => e.1 == p) = true) : p ∉ st.dirs := by
  obtain ⟨e, he, hp⟩ := List.any_eq_true.mp h
  have heq : e.1 = p := by simpa using hp
  have hall := List.all_eq_true.mp hw e he
  intro hmem
  rw [heq] at hall
  simp [hmem] at hall

lemma any_key_setFile_of (st : LocalState) (p : String) (n : Nat) (q : String)
    (h : q = p ∨ st.files.any (fun e => e.1 == q) = true) :
    (st.setFile p n).files.any (fun e => e.1 == q) = true := by
  unfold LocalState.setFile
  by_cases hqp : q = p
  · subst hqp; simp
  · rcases h with h | h
    · exact absurd h hqp
    · simp only [List.any_cons]
      rw [any_key_filter_keep st.files p q hqp h]
      simp

lemma any_obj_filter_ne (l : List (String × String × Nat)) (b k : String) :
    (l.filter (fun o => !(o.1 == b && o.2.1 == k))).any
      (fun o => o.1 == b && o.2.1 == k) = false := by
  rw [List.any_eq_false]
  intro o ho
  have h2 := (List.mem_filter.mp ho).2
  have h3 : (o.1 == b && o.2.1 == k) = false := by rwa [Bool.not_eq_true'] at h2
  simp [h3]

lemma any_obj_filter_keep (l : List (String × String × Nat)) (b k b2 k2 : String)
    (hne : ¬(b2 = b ∧ k2 = k))
    (h : l.any (fun o => o.1 == b2 && o.2.1 == k2) = true) :
    (l.filter (fun o => !(o.1 == b && o.2.1 == k))).any
      (fun o => o.1 == b2 && o.2.1 == k2) = true := by
  obtain ⟨o, ho, hp⟩ := List.any_eq_true.mp h
  have hb2 : o.1 = b2 ∧ o.2.1 = k2 := by simpa using hp
  refine List.any_eq_true.mpr ⟨o, List.mem_filter.mpr ⟨ho, ?_⟩, hp⟩
  simp only [hb2.1, hb2.2, Bool.not_eq_true', Bool.and_eq_false_iff]
  by_cases h1 : b2 = b
  · right
    simp only [beq_eq_false_iff_ne, ne_eq]
    exact fun h2 => hne ⟨h1, h2⟩
  · left
    simp only [beq_eq_false_iff_ne, ne_eq]
    exact h1

lemma removeObject_hasObject_self (st : S3State) (b k : String) :
    (st.removeObject b k).hasObject b k = false :=
  any_obj_filter_ne st.objects b k

lemma removeObject_hasObject_keep (st : S3State) (b k b2 k2 : String)
    (hne : ¬(b2 = b ∧ k2 = k)) (h : st.hasObject b2 k2 = true) :
    (st.removeObject b k).hasObject b2 k2 = true :=
  any_obj_filter_keep st.objects b k b2 k2 hne h

lemma putObject_hasObject_self (st : S3State) (b k : String) (n : Nat) :
    (st.putObject b k n).hasObject b k = true := by
  unfold S3State.putObject S3State.hasObject
  simp

lemma putObject_hasObject_keep (st : S3State) (b k : String) (n : Nat) (b2 k2 : String)
    (hne : ¬(b2 = b ∧ k2 = k)) (h : st.hasObject b2 k2 = true) :
    (st.putObject b k n).hasObject b2 k2 = true := by
  unfold S3State.putObject S3State.hasObject
  simp only [List.any_cons]
  rw [any_obj_filter_keep st.objects b k b2 k2 hne h]
  simp

lemma hasObject_of_objectSize (st : S3State) (b k : String) (n : Nat)
    (h : st.objectSize b k = some n) : st.hasObject b k = true := by
  rw [hasObject_eq_isSome, h]
  rfl

lemma classify_remote (p : String) (h : isS3Path p = true) :
    classify p = .remoteLoc (bucketAndKey p).1 (bucketAndKey p).2 := by
  simp [classify, h]

lemma classify_local (p : String) (h : isS3Path p = false) :
    classify p = .localPath p := by
  simp [classify, h]

lemma localExists_setFile_self (st : LocalState) (p : String) (n : Nat) :
    (st.setFile p n).localExists p = true := by
  unfold LocalState.localExists
  rw [any_key_setFile_of st p n p (Or.inl rfl)]
  simp

lemma localExists_eq_true_of_any (st : LocalState) (p : String)
    (h : st.files.any (fun e => e.1 == p) = true) : st.localExists p = true := by
  unfold LocalState.localExists
  rw [h]
  simp

lemma localExists_eq_true_of_dirs (st : LocalState) (p : String)
    (h : p ∈ st.dirs) : st.localExists p = true := by
  unfold LocalState.localExists
  have hc : st.dirs.contains p = true := by simpa using h
  rw [hc]
  simp

lemma localExists_eq_false (st : LocalState) (p : String)
    (h1 : st.files.any (fun e => e.1 == p) = false) (h2 : p ∉ st.dirs) :
    st.localExists p = false := by
  unfold LocalState.localExists
  rw [h1]
  simpa using h2

/-- Claim C2 (remote collaborator spec-modelled): for distinct locations `a`
and `b`, after a successful `transfer(a, b, delete_src := true)` the source
has been deleted via `delete`, so `exists a` reports false and `exists b`
reports true; this holds in all four backend combinations, remote-to-remote
included. -/
theorem transfer_delete_source_spec :
    ∀ (f0 : FileOps) (a b : String) (w : World) (f1 : FileOps) (w1 : World),
      w.fs.wfb = true →
      classify a ≠ classify b →
      FileOps.transfer f0 a b true w = .ok (f1, w1) →
      FileOps.exists f1 a w1 = .ok (false, f1)
      ∧ FileOps.exists f1 b w1 = .ok (true, f1) := by
  intro f0 a b w f1 w1 hwf hcl htr
  cases ha : isS3Path a <;> cases hb : isS3Path b
  · -- local → local
    have hab : a ≠ b := fun heq =>
      hcl (by rw [classify_local a ha, classify_local b hb, heq])
    have habf : (a == b) = false := beq_eq_false_iff_ne.mpr hab
    simp only [FileOps.transfer, S3Ops.is_s3_path, ha, hb, Bool.false_eq_true, if_false,
      shutilCopy, habf] at htr
    cases hl : lookupFile w.fs.files a with
    | none => simp [hl] at htr
    | some n =>
      simp only [hl, if_true] at htr
      have hany : w.fs.files.any (fun e => e.1 == a) = true := lookup_some_any _ _ _ hl
      have hnd : a ∉ w.fs.dirs := wfb_any_not_dir _ _ hwf hany
      by_cases hbd : b ∈ w.fs.dirs
      · simp only [if_pos hbd] at htr
        have hanyt := any_key_setFile_of w.fs (b ++ "/" ++ basename a) n a (Or.inr hany)
        simp only [FileOps.delete, s3_snd_s3, S3Ops.is_s3_path, ha, Bool.false_eq_true,
          if_false, LocalState.unlink, hanyt, if_true, Except.ok.injEq, Prod.mk.injEq] at htr
        obtain ⟨rfl, rfl⟩ := htr
        constructor
        · simp only [FileOps.exists, s3_snd_s3, S3Ops.is_s3_path, ha, Bool.false_eq_true,
            if_false, Except.ok.injEq, Prod.mk.injEq]
          refine ⟨?_, trivial⟩
          exact localExists_eq_false _ _ (any_key_filter_ne _ _) hnd
        · simp only [FileOps.exists, s3_snd_s3, S3Ops.is_s3_path, hb, Bool.false_eq_true,
            if_false, Except.ok.injEq, Prod.mk.injEq]
          refine ⟨?_, trivial⟩
          exact localExists_eq_true_of_dirs _ _ hbd
      · simp only [if_neg hbd] at htr
        have hanyt := any_key_setFile_of w.fs b n a (Or.inr hany)
        simp only [FileOps.delete, s3_snd_s3, S3Ops.is_s3_path, ha, Bool.false_eq_true,
          if_false, LocalState.unlink, hanyt, if_true, Except.ok.injEq, Prod.mk.injEq] at htr
        obtain ⟨rfl, rfl⟩ := htr
        have hkeep : (((w.fs.setFile b n).files.filter (fun e => e.1 != a)).any
            (fun e => e.1 == b)) = true :=
          any_key_filter_keep _ a b (Ne.symm hab)
            (any_key_setFile_of w.fs b n b (Or.inl rfl))
        constructor
        · simp only [FileOps.exists, s3_snd_s3, S3Ops.is_s3_path, ha, Bool.false_eq_true,
            if_false, Except.ok.injEq, Prod.mk.injEq]
          refine ⟨?_, trivial⟩
          exact localExists_eq_false _ _ (any_key_filter_ne _ _) hnd
        · simp only [FileOps.exists, s3_snd_s3, S3Ops.is_s3_path, hb, Bool.false_eq_true,
            if_false, Except.ok.injEq, Prod.mk.injEq]
          refine ⟨?_, trivial⟩
          exact localExists_eq_true_of_any _ _ hkeep
  · -- local → remote (upload)
    simp only [FileOps.transfer, S3Ops.is_s3_path, ha, hb, Bool.false_eq_true, if_false,
      if_true, S3Ops.bucket_and_partition, S3Ops.client_upload_file] at htr
    cases hl : lookupFile w.fs.files a with
    | none => simp [hl] at htr
    | some n =>
      simp only [hl] at htr
      by_cases hbk : (bucketAndKey b).1 ∈ w.s3.buckets
      · simp only [if_pos hbk] at htr
        have hany : w.fs.files.any (fun e => e.1 == a) = true := lookup_some_any _ _ _ hl
        have hnd : a ∉ w.fs.dirs := wfb_any_not_dir _ _ hwf hany
        simp only [FileOps.delete, s3_snd_s3, S3Ops.is_s3_path, ha, Bool.false_eq_true,
          if_false, LocalState.unlink, hany, if_true, Except.ok.injEq, Prod.mk.injEq] at htr
        obtain ⟨rfl, rfl⟩ := htr
        constructor
        · simp only [FileOps.exists, s3_snd_s3, S3Ops.is_s3_path, ha, Bool.false_eq_true,
            if_false, Except.ok.injEq, Prod.mk.injEq]
          refine ⟨?_, trivial⟩
          exact localExists_eq_false _ _ (any_key_filter_ne _ _) hnd
        · simp only [FileOps.exists, s3_snd_s3, S3Ops.exists, S3Ops.bucket_and_partition,
            S3Ops.is_s3_path, hb, if_true, Bind.bind, Except.bind, Except.ok.injEq,
            Prod.mk.injEq]
          refine ⟨?_, trivial⟩
          exact putObject_hasObject_self _ _ _ _
      · simp [if_neg hbk] at htr
  · -- remote → local (download)
    simp only [FileOps.transfer, S3Ops.is_s3_path, ha, hb, Bool.false_eq_true, if_false,
      if_true, S3Ops.download_file, S3Ops.bucket_and_partition, Bind.bind,
      Except.bind] at htr
    cases hos : w.s3.objectSize (bucketAndKey a).1 (bucketAndKey a).2 with
    | none => simp [hos] at htr
    | some n =>
      simp only [hos] at htr
      have hhas : w.s3.hasObject (bucketAndKey a).1 (bucketAndKey a).2 = true :=
        hasObject_of_objectSize _ _ _ _ hos
      simp only [FileOps.delete, s3_snd_s3, S3Ops.is_s3_path, ha, if_true,
        S3Ops.delete_file, S3Ops.bucket_and_partition, Bind.bind, Except.bind,
        hhas, Except.ok.injEq, Prod.mk.injEq] at htr
      obtain ⟨rfl, rfl⟩ := htr
      constructor
      · simp only [FileOps.exists, s3_snd_s3, S3Ops.exists, S3Ops.bucket_and_partition,
          S3Ops.is_s3_path, ha, if_true, Bind.bind, Except.bind, Except.ok.injEq,
          Prod.mk.injEq]
        refine ⟨?_, trivial⟩
        exact removeObject_hasObject_self _ _ _
      · simp only [FileOps.exists, s3_snd_s3, S3Ops.is_s3_path, hb, Bool.false_eq_true,
          if_false, Except.ok.injEq, Prod.mk.injEq]
        refine ⟨?_, trivial⟩
        exact localExists_setFile_self _ _ _
  · -- remote → remote
    have hne : ¬((bucketAndKey a).1 = (bucketAndKey b).1
        ∧ (bucketAndKey a).2 = (bucketAndKey b).2) := by
      intro hc2
      apply hcl
      rw [classify_remote a ha, classify_remote b hb, hc2.1, hc2.2]
    have hne2 : ¬((bucketAndKey b).1 = (bucketAndKey a).1
        ∧ (bucketAndKey b).2 = (bucketAndKey a).2) :=
      fun hc2 => hne ⟨hc2.1.symm, hc2.2.symm⟩
    simp only [FileOps.transfer, S3Ops.is_s3_path, ha, hb, if_true,
      S3Ops.transfer_s3_location, S3Ops.bucket_and_partition, Bind.bind,
      Except.bind] at htr
    cases hos : w.s3.objectSize (bucketAndKey a).1 (bucketAndKey a).2 with
    | none => simp [hos] at htr
    | some n =>
      simp only [hos] at htr
      have hhas : (w.s3.putObject (bucketAndKey b).1 (bucketAndKey b).2 n).hasObject
          (bucketAndKey a).1 (bucketAndKey a).2 = true :=
        putObject_hasObject_keep _ _ _ _ _ _ hne (hasObject_of_objectSize _ _ _ _ hos)
      simp only [FileOps.delete, s3_snd_s3, S3Ops.is_s3_path, ha, if_true,
        S3Ops.delete_file, S3Ops.bucket_and_partition, Bind.bind, Except.bind,
        hhas, Except.ok.injEq, Prod.mk.injEq] at htr
      obtain ⟨rfl, rfl⟩ := htr
      have hkeep : ((w.s3.putObject (bucketAndKey b).1 (bucketAndKey b).2 n).removeObject
          (bucketAndKey a).1 (bucketAndKey a).2).hasObject
          (bucketAndKey b).1 (bucketAndKey b).2 = true :=
        removeObject_hasObject_keep _ _ _ _ _ hne2 (putObject_hasObject_self _ _ _ _)
      constructor
      · simp only [FileOps.exists, s3_snd_s3, S3Ops.exists, S3Ops.bucket_and_partition,
          S3Ops.is_s3_path, ha, if_true, Bind.bind, Except.bind, Except.ok.injEq,
          Prod.mk.injEq]
        refine ⟨?_, trivial⟩
        exact removeObject_hasObject_self _ _ _
      · simp only [FileOps.exists, s3_snd_s3, S3Ops.exists, S3Ops.bucket_and_partition,
          S3Ops.is_s3_path, hb, if_true, Bind.bind, Except.bind, Except.ok.injEq,
          Prod.mk.injEq]
        refine ⟨?_, trivial⟩
        exact hkeep

theorem transfer_delete_source_witness :
    FileOps.exists cachedNoneFileOps "/a/x" sampleMoveDstWorld
      = .ok (false, cachedNoneFileOps)
    ∧ FileOps.exists cachedNoneFileOps "/a/y" sampleMoveDstWorld
      = .ok (true, cachedNoneFileOps) :=
  transfer_delete_source_spec (FileOps.init none) "/a/x" "/a/y" sampleMoveSrcWorld
    cachedNoneFileOps sampleMoveDstWorld (by decide) (by decide) rfl

end FileFlows
